import Mathlib

/-!
Verification of the FTX websocket client (`client.py`, class `FtxWebsocketClient`)
against its natural-language specification.

The embedding below translates the Python source into Lean:
* Python floats carried in messages (prices, sizes, timestamps) are modelled as
  rationals `ℚ`; the only operations the source performs on them are equality,
  comparison, negation and zero-tests, which `ℚ` models faithfully for the
  decimal values appearing in JSON messages.
* Python dicts used as keyed stores are modelled as association lists with
  insert-or-overwrite (`alistInsert`), erase (`alistErase`) and lookup
  (`alookup`); `del d[k]` on a *possibly absent* key is modelled by the
  `Option`-valued `delLevel` (a `defaultdict` does not protect `del`:
  a missing key raises `KeyError`).
* Side effects on the socket (sent frames, event waits, event pulses) are
  returned as an explicit `Effect` trace.
* Python's `repr` of a float (used by `f'{float(x)}'` when building checksum
  strings) is abstracted as an explicit formatting argument `fmt : ℚ → String`;
  theorems quantify over it, and witnesses instantiate it with `fmtQ`.
-/

set_option maxRecDepth 100000

namespace FtxWs

/-! ### Bytes, UTF-8, CRC-32 (zlib), SHA-256, HMAC -/

/-- Bound for 32-bit words (`2 ^ 32`). -/
def UINT32 : Nat := 4294967296

/-- UTF-8 encoding of a single Unicode code point, as a list of byte values. -/
def utf8EncodeCharNat (n : Nat) : List Nat :=
  if n < 128 then [n]
  else if n < 2048 then [192 ||| (n >>> 6), 128 ||| (n &&& 63)]
  else if n < 65536 then
    [224 ||| (n >>> 12), 128 ||| ((n >>> 6) &&& 63), 128 ||| (n &&& 63)]
  else
    [240 ||| (n >>> 18), 128 ||| ((n >>> 12) &&& 63),
     128 ||| ((n >>> 6) &&& 63), 128 ||| (n &&& 63)]

/-- UTF-8 bytes of a string (Python `str.encode()`). -/
def utf8Bytes (s : String) : List Nat :=
  s.data.foldr (fun c acc => utf8EncodeCharNat c.toNat ++ acc) []

/-- One bit step of the reflected CRC-32 used by `zlib.crc32`. -/
def crc32BitStep (c : Nat) : Nat :=
  if c % 2 = 1 then (c / 2) ^^^ 3988292384 else c / 2

/-- Absorb one byte into a CRC-32 accumulator. -/
def crc32Byte (c : Nat) (b : Nat) : Nat :=
  crc32BitStep^[8] (c ^^^ b)

/-- `zlib.crc32` over a byte list (initial and final xor `0xFFFFFFFF`). -/
def crc32 (bytes : List Nat) : Nat :=
  (bytes.foldl crc32Byte 4294967295) ^^^ 4294967295

/-- Right rotation of a 32-bit word by `n` bits. -/
def rotr32 (n x : Nat) : Nat := ((x >>> n) ||| (x <<< (32 - n))) % UINT32

/-- SHA-256 `Ch` function. -/
def shaCh (x y z : Nat) : Nat := (x &&& y) ^^^ ((x ^^^ 4294967295) &&& z)

/-- SHA-256 `Maj` function. -/
def shaMaj (x y z : Nat) : Nat := (x &&& y) ^^^ (x &&& z) ^^^ (y &&& z)

/-- SHA-256 `Σ₀`. -/
def shaBigSigma0 (x : Nat) : Nat := rotr32 2 x ^^^ rotr32 13 x ^^^ rotr32 22 x

/-- SHA-256 `Σ₁`. -/
def shaBigSigma1 (x : Nat) : Nat := rotr32 6 x ^^^ rotr32 11 x ^^^ rotr32 25 x

/-- SHA-256 `σ₀`. -/
def shaSmallSigma0 (x : Nat) : Nat := rotr32 7 x ^^^ rotr32 18 x ^^^ (x >>> 3)

/-- SHA-256 `σ₁`. -/
def shaSmallSigma1 (x : Nat) : Nat := rotr32 17 x ^^^ rotr32 19 x ^^^ (x >>> 10)

/-- The 64 SHA-256 round constants. -/
def shaK : List Nat :=
  [1116352408, 1899447441, 3049323471, 3921009573, 961987163, 1508970993,
   2453635748, 2870763221, 3624381080, 310598401, 607225278, 1426881987,
   1925078388, 2162078206, 2614888103, 3248222580, 3835390401, 4022224774,
   264347078, 604807628, 770255983, 1249150122, 1555081692, 1996064986,
   2554220882, 2821834349, 2952996808, 3210313671, 3336571891, 3584528711,
   113926993, 338241895, 666307205, 773529912, 1294757372, 1396182291,
   1695183700, 1986661051, 2177026350, 2456956037, 2730485921, 2820302411,
   3259730800, 3345764771, 3516065817, 3600352804, 4094571909, 275423344,
   430227734, 506948616, 659060556, 883997877, 958139571, 1322822218,
   1537002063, 1747873779, 1955562222, 2024104815, 2227730452, 2361852424,
   2428436474, 2756734187, 3204031479, 3329325298]

/-- The initial SHA-256 hash state. -/
def shaH0 : List Nat :=
  [1779033703, 3144134277, 1013904242, 2773480762,
   1359893119, 2600822924, 528734635, 1541459225]

/-- The eight working variables of the SHA-256 compression loop. -/
structure Sha8 where
  a : Nat
  b : Nat
  c : Nat
  d : Nat
  e : Nat
  f : Nat
  g : Nat
  hh : Nat

/-- One round of the SHA-256 compression loop; `kw` is `(Kₜ, Wₜ)`. -/
def shaRound (st : Sha8) (kw : Nat × Nat) : Sha8 :=
  let t1 := (st.hh + shaBigSigma1 st.e + shaCh st.e st.f st.g + kw.1 + kw.2) % UINT32
  let t2 := (shaBigSigma0 st.a + shaMaj st.a st.b st.c) % UINT32
  ⟨(t1 + t2) % UINT32, st.a, st.b, st.c, (st.d + t1) % UINT32, st.e, st.f, st.g⟩

/-- One step of the message-schedule extension (appends `Wₜ` for `t ≥ 16`). -/
def shaScheduleStep (w : List Nat) (_i : Nat) : List Nat :=
  w ++ [(shaSmallSigma1 (w.getD (w.length - 2) 0) + w.getD (w.length - 7) 0 +
         shaSmallSigma0 (w.getD (w.length - 15) 0) + w.getD (w.length - 16) 0) % UINT32]

/-- Extend a 16-word block to the 64-word message schedule. -/
def shaSchedule (block : List Nat) : List Nat :=
  (List.range 48).foldl shaScheduleStep block

/-- Compress one 16-word block into the running hash state (eight words). -/
def shaCompress (hs : List Nat) (block : List Nat) : List Nat :=
  let w := shaSchedule block
  let st0 : Sha8 := ⟨hs.getD 0 0, hs.getD 1 0, hs.getD 2 0, hs.getD 3 0,
                     hs.getD 4 0, hs.getD 5 0, hs.getD 6 0, hs.getD 7 0⟩
  let st := (shaK.zip w).foldl shaRound st0
  [(hs.getD 0 0 + st.a) % UINT32, (hs.getD 1 0 + st.b) % UINT32,
   (hs.getD 2 0 + st.c) % UINT32, (hs.getD 3 0 + st.d) % UINT32,
   (hs.getD 4 0 + st.e) % UINT32, (hs.getD 5 0 + st.f) % UINT32,
   (hs.getD 6 0 + st.g) % UINT32, (hs.getD 7 0 + st.hh) % UINT32]

/-- Big-endian bytes (most significant first) of `val`, `n` bytes wide. -/
def beBytes (n : Nat) (val : Nat) : List Nat :=
  (List.range n).map (fun i => (val >>> (8 * (n - 1 - i))) % 256)

/-- Group a list of bytes into big-endian 32-bit words (four bytes per word). -/
def bytesToWords : List Nat → List Nat
  | b0 :: b1 :: b2 :: b3 :: rest => (((b0 * 256 + b1) * 256 + b2) * 256 + b3) :: bytesToWords rest
  | _ => []

/-- SHA-256 padding: append `0x80`, zeros, and the 64-bit big-endian bit length. -/
def shaPad (msg : List Nat) : List Nat :=
  let L := msg.length
  let k := (120 - ((L + 1) % 64)) % 64
  msg ++ [128] ++ List.replicate k 0 ++ beBytes 8 (8 * L)

/-- Feed bytes of the padded message one at a time, compressing each full
64-byte buffer; the accumulator is `(hash state, pending buffer)`. -/
def shaFoldStep (acc : List Nat × List Nat) (byte : Nat) : List Nat × List Nat :=
  let buf := acc.2 ++ [byte]
  if buf.length = 64 then (shaCompress acc.1 (bytesToWords buf), []) else (acc.1, buf)

/-- SHA-256 digest (32 bytes) of a byte list. -/
def sha256 (msg : List Nat) : List Nat :=
  let hs := ((shaPad msg).foldl shaFoldStep (shaH0, [])).1
  hs.foldr (fun w acc => beBytes 4 w ++ acc) []

/-- HMAC-SHA256 digest (32 bytes) of `msg` under `key`. -/
def hmacSha256 (key msg : List Nat) : List Nat :=
  let k0 := if 64 < key.length then sha256 key ++ List.replicate 32 0
            else key ++ List.replicate (64 - key.length) 0
  let ipadKey := k0.map (fun b => b ^^^ 54)
  let opadKey := k0.map (fun b => b ^^^ 92)
  sha256 (opadKey ++ sha256 (ipadKey ++ msg))

/-- Lower-case hex digit for a value below 16. -/
def hexDigit (n : Nat) : Char :=
  if n < 10 then Char.ofNat (48 + n) else Char.ofNat (87 + n)

/-- Lower-case hex string of a byte list (Python `.hexdigest()`). -/
def hexStr (bytes : List Nat) : String :=
  String.mk (bytes.foldr (fun b acc => hexDigit (b / 16) :: hexDigit (b % 16) :: acc) [])

/-- `hmac.new(key, msg, 'sha256').hexdigest()`. -/
def hmacSha256Hex (key msg : List Nat) : String := hexStr (hmacSha256 key msg)

/-! ### Association lists (Python dict stores) -/

/-- Lookup in an association list (Python `d[k]` read / `k in d` test). -/
def alookup {K V : Type} [DecidableEq K] : List (K × V) → K → Option V
  | [], _ => none
  | (k1, v1) :: rest, k => if k1 = k then some v1 else alookup rest k

/-- Insert-or-overwrite (Python `d[k] = v`): an existing key keeps its
position, a new key is appended at the end (dict insertion order). -/
def alistInsert {K V : Type} [DecidableEq K] : List (K × V) → K → V → List (K × V)
  | [], k, v => [(k, v)]
  | (k1, v1) :: rest, k, v =>
    if k1 = k then (k, v) :: rest else (k1, v1) :: alistInsert rest k v

/-- Erase every entry with the given key (used for `del d[k]` guarded by a
`k in d` membership test, as in `_reset_orderbook`). -/
def alistErase {K V : Type} [DecidableEq K] : List (K × V) → K → List (K × V)
  | [], _ => []
  | (k1, v1) :: rest, k =>
    if k1 = k then alistErase rest k else (k1, v1) :: alistErase rest k

/-! ### Data model -/

/-- A Python-level failure surfaced by the client code. -/
inductive PyError where
  /-- `KeyError`: a dict subscript or `del` on a missing key. -/
  | keyError : PyError
  /-- `raise Exception(message)` in `_on_message` for server `error` frames. -/
  | exception : PyError
deriving DecidableEq

/-- One side of an order book: `defaultdict(float)` mapping price to size,
modelled as an association list over exact rationals. -/
abbrev BookSide : Type := List (ℚ × ℚ)

/-- Per-market order book: the `{'bids': ..., 'asks': ...}` pair. -/
structure Book where
  bids : BookSide
  asks : BookSide
deriving DecidableEq

/-- The empty book a fresh `defaultdict` access materialises. -/
def Book.empty : Book := ⟨[], []⟩

/-- A `(channel, market)` subscription dict; `market` is absent for the
private `fills` / `orders` channels. -/
structure Subscription where
  channel : String
  market : Option String
deriving DecidableEq

/-- An outbound frame sent with `send_json`. -/
inductive Frame where
  /-- `{'op': 'subscribe', **subscription}` -/
  | subscribe (sub : Subscription)
  /-- `{'op': 'unsubscribe', **subscription}` -/
  | unsubscribe (sub : Subscription)
  /-- `{'op': 'login', 'args': {'key': key, 'sign': sign, 'time': time}}` -/
  | login (key : String) (sign : String) (time : Nat)
deriving DecidableEq

/-- An observable side effect of a client operation. -/
inductive Effect where
  /-- A frame written to the socket. -/
  | send (f : Frame)
  /-- A blocking wait on the market's update `Event` with the given timeout. -/
  | wait (market : String) (timeout : Option ℚ)
  /-- `Event.set()` immediately followed by `Event.clear()`. -/
  | pulse (market : String)
deriving DecidableEq

/-- The mutable state of `FtxWebsocketClient`. Trade and fill payloads, and
ticker / order payloads, are opaque to the client and modelled as strings.
The `_orderbook_update_events` dict holds `gevent` events whose set/clear
pulses appear in the `Effect` trace instead of in the state. -/
structure WsState where
  /-- `_api_key` -/
  apiKey : String
  /-- `_api_secret` -/
  apiSecret : String
  /-- `_trades`: per-market `deque(maxlen=10000)` -/
  trades : List (String × List String)
  /-- `_fills`: single `deque(maxlen=10000)` -/
  fills : List String
  /-- `_subscriptions`: a Python `list` (may hold duplicates) -/
  subscriptions : List Subscription
  /-- `_orders`: keyed by `data['id']` -/
  orders : List (Int × String)
  /-- `_tickers`: keyed by market -/
  tickers : List (String × String)
  /-- `_orderbook_timestamps` (`defaultdict(float)`, reads default to `0`) -/
  orderbookTimestamps : List (String × ℚ)
  /-- `_orderbooks` -/
  orderbooks : List (String × Book)
  /-- `_logged_in` -/
  loggedIn : Bool
  /-- `_last_received_orderbook_data_at` -/
  lastReceivedOrderbookDataAt : ℚ
deriving DecidableEq

/-- The payload of an `orderbook` channel message (`message['data']`). -/
structure ObMsgData where
  action : String
  bids : List (ℚ × ℚ)
  asks : List (ℚ × ℚ)
  time : ℚ
  checksum : Nat
deriving DecidableEq

/-! ### Operations -/

/-- State after `__init__` (which ends by calling `_reset_data`): both API
credentials are the empty string in the source. -/
def initState : WsState :=
  { apiKey := "", apiSecret := "", trades := [], fills := [], subscriptions := [],
    orders := [], tickers := [], orderbookTimestamps := [], orderbooks := [],
    loggedIn := false, lastReceivedOrderbookDataAt := 0 }

/-- `_reset_data`: reinitialises every store except `_trades`, `_fills` and
the API credentials (the source does not touch those three). -/
def reset_data (s : WsState) : WsState :=
  { s with subscriptions := [], orders := [], tickers := [],
           orderbookTimestamps := [], orderbooks := [],
           loggedIn := false, lastReceivedOrderbookDataAt := 0 }

/-- `_on_open`: runs `_reset_data`. -/
def on_open (s : WsState) : WsState := reset_data s

/-- `_reset_orderbook`: drop the market's book and timestamp entries when
present (both `del`s are guarded by `in` tests, so they cannot fail). -/
def reset_orderbook (s : WsState) (market : String) : WsState :=
  { s with orderbooks := alistErase s.orderbooks market,
           orderbookTimestamps := alistErase s.orderbookTimestamps market }

/-- `_login`: send the login frame signed with
`hmac.new(secret, f'{ts}websocket_login'.encode(), 'sha256').hexdigest()`
and set `_logged_in`. The wall-clock `int(time.time() * 1000)` is passed
in as `ts`. -/
def loginOp (s : WsState) (ts : Nat) : WsState × List Effect :=
  ({ s with loggedIn := true },
   [Effect.send (Frame.login s.apiKey
      (hmacSha256Hex (utf8Bytes s.apiSecret)
        (utf8Bytes (toString ts ++ "websocket_login"))) ts)])

/-- `_subscribe`: send the subscribe frame and append to `_subscriptions`
(unconditionally; the presence check lives at the call sites). -/
def subscribeOp (s : WsState) (sub : Subscription) : WsState × List Effect :=
  ({ s with subscriptions := s.subscriptions ++ [sub] },
   [Effect.send (Frame.subscribe sub)])

/-- The `while subscription in self._subscriptions: ... remove` loop of
`_unsubscribe`: drop every structurally equal entry. -/
def removeAllSubs : List Subscription → Subscription → List Subscription
  | [], _ => []
  | x :: rest, sub =>
    if x = sub then removeAllSubs rest sub else x :: removeAllSubs rest sub

/-- `_unsubscribe`: send the unsubscribe frame and remove all equal entries. -/
def unsubscribeOp (s : WsState) (sub : Subscription) : WsState × List Effect :=
  ({ s with subscriptions := removeAllSubs s.subscriptions sub },
   [Effect.send (Frame.unsubscribe sub)])

/-- The lazy-subscribe prologue shared by every read-side getter:
`if subscription not in self._subscriptions: self._subscribe(subscription)`. -/
def ensureSub (s : WsState) (sub : Subscription) : WsState × List Effect :=
  if sub ∈ s.subscriptions then (s, []) else subscribeOp s sub

/-- `get_trades`: lazily subscribe to `('trades', market)` and return a copy
of the market's trade buffer (a fresh `defaultdict` read yields `[]`). -/
def get_trades (s : WsState) (market : String) :
    WsState × List Effect × List String :=
  let r := ensureSub s ⟨"trades", some market⟩
  (r.1, r.2, (alookup r.1.trades market).getD [])

/-- `wait_for_orderbook_update`: lazily subscribe, then block on the
market's update event with the given timeout (the wait is recorded as an
`Effect`; in this sequential model no concurrent signal arrives). -/
def wait_for_orderbook_update (s : WsState) (market : String)
    (timeout : Option ℚ) : WsState × List Effect :=
  let r := ensureSub s ⟨"orderbook", some market⟩
  (r.1, r.2 ++ [Effect.wait market timeout])

/-- Sort key multiplier from `lambda order: order[0] * (-1 if side == 'bids' else 1)`. -/
def sideSign (side : String) : ℚ := if side = "bids" then -1 else 1

/-- One side of the `get_orderbook` result: keep levels with nonzero size
(`if quantity`), then sort by the signed price key. Python's `sorted` is a
stable sort; since the levels come from a dict their prices are pairwise
distinct, so any sound sort produces the same list, and we use
`List.insertionSort` (which is also stable). -/
def sortSide (side : String) (b : BookSide) : List (ℚ × ℚ) :=
  List.insertionSort (fun x y : ℚ × ℚ => x.1 * sideSign side ≤ y.1 * sideSign side)
    (b.filter (fun l => decide (l.2 ≠ 0)))

/-- The dict returned by `get_orderbook`. -/
structure ObResult where
  bids : List (ℚ × ℚ)
  asks : List (ℚ × ℚ)
deriving DecidableEq

/-- `get_orderbook`: lazily subscribe; if the market's timestamp is `0`
(never updated), block in `wait_for_orderbook_update(market, 5)`; then read
the current book, filtered and sorted per side. -/
def get_orderbook (s : WsState) (market : String) :
    WsState × List Effect × ObResult :=
  let r1 := ensureSub s ⟨"orderbook", some market⟩
  let r2 :=
    if (alookup r1.1.orderbookTimestamps market).getD 0 = 0 then
      wait_for_orderbook_update r1.1 market (some 5)
    else (r1.1, [])
  let book := (alookup r2.1.orderbooks market).getD Book.empty
  (r2.1, r1.2 ++ r2.2, ⟨sortSide "bids" book.bids, sortSide "asks" book.asks⟩)

/-- `get_orderbook_timestamp`: a `defaultdict(float)` read. -/
def get_orderbook_timestamp (s : WsState) (market : String) : ℚ :=
  (alookup s.orderbookTimestamps market).getD 0

/-- `get_ticker`: lazily subscribe and read the ticker cache (default `{}`,
modelled as the empty string payload). -/
def get_ticker (s : WsState) (market : String) : WsState × List Effect × String :=
  let r := ensureSub s ⟨"ticker", some market⟩
  (r.1, r.2, (alookup r.1.tickers market).getD "")

/-- `deque(maxlen=cap).append`: drop from the left when full. -/
def dequePush (cap : Nat) (b : List α) (x : α) : List α :=
  if b.length < cap then b ++ [x] else b.drop (b.length + 1 - cap) ++ [x]

/-- `_handle_trades_message` body given the market and payload:
`self._trades[message['market']].append(message['data'])`. -/
def handle_trades_message (s : WsState) (market : String) (payload : String) :
    WsState :=
  { s with trades := (alistInsert s.trades market
      (dequePush 10000 ((alookup s.trades market).getD []) payload)) }

/-- `_handle_ticker_message` body: overwrite the market's ticker cache. -/
def handle_ticker_message (s : WsState) (market : String) (payload : String) :
    WsState :=
  { s with tickers := alistInsert s.tickers market payload }

/-- `_handle_fills_message` body: append to the single fills deque. -/
def handle_fills_message (s : WsState) (payload : String) : WsState :=
  { s with fills := dequePush 10000 s.fills payload }

/-- `_handle_orders_message` body: upsert by `data['id']`. -/
def handle_orders_message (s : WsState) (id : Int) (payload : String) : WsState :=
  { s with orders := alistInsert s.orders id payload }

/-! ### Orderbook message application -/

/-- `book[price] = size`: overwrite in place or append. -/
def setLevel : BookSide → ℚ → ℚ → BookSide
  | [], p, sz => [(p, sz)]
  | (q, t) :: rest, p, sz =>
    if q = p then (p, sz) :: rest else (q, t) :: setLevel rest p sz

/-- `del book[price]`: remove the first entry with this price, or `none`
(`KeyError`) when the price is absent — `defaultdict` does not guard `del`. -/
def delLevel : BookSide → ℚ → Option BookSide
  | [], _ => none
  | (q, t) :: rest, p =>
    if q = p then some rest else (delLevel rest p).map (fun b => (q, t) :: b)

/-- The `for price, size in data[side]` loop: nonzero size inserts or
overwrites, zero size deletes (raising `KeyError` when absent). -/
def applySide (b : BookSide) : List (ℚ × ℚ) → Except PyError BookSide
  | [] => Except.ok b
  | (p, sz) :: rest =>
    if sz ≠ 0 then applySide (setLevel b p sz) rest
    else
      match delLevel b p with
      | some b2 => applySide b2 rest
      | none => Except.error PyError.keyError

/-- Lines 288–297 of the handler: reset the book on `partial`, apply both
sides of the diff, and set the market's timestamp to `data['time']`.
The source iterates `for side in {'bids', 'asks'}` in unspecified set
order; the two sides touch disjoint books, so the successful outcome is
order-independent, and failure is failure in either order. -/
def applyObData (s : WsState) (market : String) (d : ObMsgData) :
    Except PyError WsState := do
  let s0 := if d.action = "partial" then reset_orderbook s market else s
  let book := (alookup s0.orderbooks market).getD Book.empty
  let bids2 ← applySide book.bids d.bids
  let asks2 ← applySide book.asks d.asks
  Except.ok { s0 with
    orderbooks := alistInsert s0.orderbooks market ⟨bids2, asks2⟩,
    orderbookTimestamps := alistInsert s0.orderbookTimestamps market d.time }

/-! ### Checksum string -/

/-- `itertools.zip_longest` with `None` fill. -/
def zipLongest : List α → List β → List (Option α × Option β)
  | [], [] => []
  | x :: xs, [] => (some x, none) :: zipLongest xs []
  | [], y :: ys => (none, some y) :: zipLongest ([] : List α) ys
  | x :: xs, y :: ys => (some x, some y) :: zipLongest xs ys

/-- `f'{float(order[0])}:{float(order[1])}'`; `fmt` stands for Python's
`repr` of the float (applied unchanged to the stored value). -/
def fmtLevel (fmt : ℚ → String) (l : ℚ × ℚ) : String := fmt l.1 ++ ":" ++ fmt l.2

/-- The `checksum_data` list comprehension: zip the top-100 bid and ask
lists, and for each pair join the present levels with `':'`. -/
def checksumData (fmt : ℚ → String) (bids asks : List (ℚ × ℚ)) : List String :=
  (zipLongest (bids.take 100) (asks.take 100)).map
    (fun bo => String.intercalate ":" (([bo.1, bo.2].filterMap id).map (fmtLevel fmt)))

/-- `int(zlib.crc32(':'.join(checksum_data).encode()))`. -/
def computedChecksum (fmt : ℚ → String) (ob : ObResult) : Nat :=
  crc32 (utf8Bytes (String.intercalate ":" (checksumData fmt ob.bids ob.asks)))

/-- `_handle_orderbook_message`: apply the data, recompute the checksum from
`get_orderbook` (whose lazy-subscribe and possible wait effects are part of
the trace), and either resync (mismatch) or pulse the market's event. -/
def handle_orderbook_message (fmt : ℚ → String) (s : WsState) (market : String)
    (d : ObMsgData) : Except PyError (WsState × List Effect) := do
  let s1 ← applyObData s market d
  let g := get_orderbook s1 market
  if computedChecksum fmt g.2.2 ≠ d.checksum then
    let s4 := reset_orderbook { g.1 with lastReceivedOrderbookDataAt := 0 } market
    let r5 := unsubscribeOp s4 ⟨"orderbook", some market⟩
    let r6 := subscribeOp r5.1 ⟨"orderbook", some market⟩
    Except.ok (r6.1, g.2.1 ++ r5.2 ++ r6.2)
  else
    Except.ok (g.1, g.2.1 ++ [Effect.pulse market])

/-! ### Inbound dispatch -/

/-- The decoded `message['data']` payload, by shape. -/
inductive Payload where
  /-- An orderbook snapshot/diff payload. -/
  | book (d : ObMsgData)
  /-- An opaque payload (trades, ticker, fills). -/
  | item (x : String)
  /-- A payload carrying an `id` field (orders channel). -/
  | order (id : Int) (x : String)
deriving DecidableEq

/-- A decoded inbound message; absent dict keys are `none`, and reading an
absent key raises `KeyError`. -/
structure InMessage where
  type : Option String
  channel : Option String
  code : Option Int
  market : Option String
  data : Option Payload
deriving DecidableEq

/-- What `_on_message` did (beyond state mutation and sent frames). -/
inductive Outcome where
  /-- Returned normally. -/
  | normal
  /-- Returned `self.reconnect()` (info code 20001). -/
  | reconnect
deriving DecidableEq

/-- Read a required dict key, raising `KeyError` when absent. -/
def reqKey {α : Type} : Option α → Except PyError α
  | some x => Except.ok x
  | none => Except.error PyError.keyError

/-- The `channel`-keyed dispatch tail of `_on_message` (from
`channel = message['channel']` on): unknown channels fall through every
`elif` and are dropped silently. -/
def dispatchChannel (fmt : ℚ → String) (s : WsState) (m : InMessage) :
    Except PyError (WsState × List Effect × Outcome) := do
  let c ← reqKey m.channel
  if c = "orderbook" then do
    let market ← reqKey m.market
    let d ← match m.data with
            | some (Payload.book d) => Except.ok d
            | _ => Except.error PyError.keyError
    let (s2, eff) ← handle_orderbook_message fmt s market d
    Except.ok (s2, eff, Outcome.normal)
  else if c = "trades" then do
    let market ← reqKey m.market
    let x ← match m.data with
            | some (Payload.item x) => Except.ok x
            | _ => Except.error PyError.keyError
    Except.ok (handle_trades_message s market x, [], Outcome.normal)
  else if c = "ticker" then do
    let market ← reqKey m.market
    let x ← match m.data with
            | some (Payload.item x) => Except.ok x
            | _ => Except.error PyError.keyError
    Except.ok (handle_ticker_message s market x, [], Outcome.normal)
  else if c = "fills" then do
    let x ← match m.data with
            | some (Payload.item x) => Except.ok x
            | _ => Except.error PyError.keyError
    Except.ok (handle_fills_message s x, [], Outcome.normal)
  else if c = "orders" then do
    match m.data with
    | some (Payload.order id x) => Except.ok (handle_orders_message s id x, [], Outcome.normal)
    | _ => Except.error PyError.keyError
  else
    Except.ok (s, [], Outcome.normal)

/-- `_on_message`: the `type` elif chain, then channel dispatch. An `info`
message whose code is not `20001` falls through the chain into the channel
dispatch (the source has no `else`), as does an unrecognised type. -/
def on_message (fmt : ℚ → String) (s : WsState) (m : InMessage) :
    Except PyError (WsState × List Effect × Outcome) := do
  let t ← reqKey m.type
  if t = "subscribed" ∨ t = "unsubscribed" then
    Except.ok (s, [], Outcome.normal)
  else if t = "info" then do
    let c ← reqKey m.code
    if c = 20001 then Except.ok (s, [], Outcome.reconnect)
    else dispatchChannel fmt s m
  else if t = "error" then
    Except.error PyError.exception
  else
    dispatchChannel fmt s m

/-- Fold a sequence of orderbook messages (each with its market) through the
handler, propagating any `KeyError`. -/
def applyObSeq (fmt : ℚ → String) (s : WsState)
    (msgs : List (String × ObMsgData)) : Except PyError WsState :=
  msgs.foldlM (fun st md => (handle_orderbook_message fmt st md.1 md.2).map Prod.fst) s

/-- Concrete float formatting for witnesses: Python's `repr` of a float with
an integral value (`repr(float(100)) = '100.0'`). -/
def fmtQ (q : ℚ) : String := toString q.num ++ ".0"

/-- Fold a sequence of `(market, payload)` trades messages through
`_handle_trades_message`. -/
def handleTradesSeq (s : WsState) (msgs : List (String × String)) : WsState :=
  msgs.foldl (fun st mx => handle_trades_message st mx.1 mx.2) s

/-! ### Spec-side checksum description (for the refinement claim) -/

/-- Spec-side definition, following the spec text for the checksum string:
pair levels by rank for `i = 0..99` (`absent` when one side is shorter),
format each present level as `price:size`, join bid and ask of a rank with
`':'`; inputs are the already-truncated top-100 lists. -/
def specRankStrings (fmt : ℚ → String) :
    List (ℚ × ℚ) → List (ℚ × ℚ) → List String
  | [], [] => []
  | b :: bs, [] => fmtLevel fmt b :: specRankStrings fmt bs []
  | [], a :: as2 => fmtLevel fmt a :: specRankStrings fmt ([] : List (ℚ × ℚ)) as2
  | b :: bs, a :: as2 =>
    (fmtLevel fmt b ++ ":" ++ fmtLevel fmt a) :: specRankStrings fmt bs as2

/-- Spec-side definition: join all rank strings with `':'`. -/
def specChecksumString (fmt : ℚ → String) (topBids topAsks : List (ℚ × ℚ)) :
    String :=
  String.intercalate ":" (specRankStrings fmt topBids topAsks)

/-! ### Well-formedness invariants -/

/-- A book side is well-formed: prices are pairwise distinct (dict keys) and
every stored size is strictly positive. -/
def SideWF (b : BookSide) : Prop :=
  (b.map Prod.fst).Nodup ∧ ∀ l ∈ b, 0 < l.2

/-- Both sides of a book are well-formed. -/
def BookWF (bk : Book) : Prop := SideWF bk.bids ∧ SideWF bk.asks

/-- Every book stored in the state is well-formed. -/
def BooksWF (s : WsState) : Prop :=
  ∀ m bk, alookup s.orderbooks m = some bk → BookWF bk

/-- A well-formed orderbook message: level sizes are nonnegative (per the
spec's data model, `size = 0` denotes removal and sizes are otherwise
positive quantities). -/
def WFObMsg (d : ObMsgData) : Prop :=
  (∀ l ∈ d.bids, 0 ≤ l.2) ∧ (∀ l ∈ d.asks, 0 ≤ l.2)

/-- Every trade buffer held in the state is within the deque capacity. -/
def TradesBounded (s : WsState) : Prop :=
  ∀ m b, alookup s.trades m = some b → b.length ≤ 10000

/-! ## Theorems -/

example : crc32 (utf8Bytes "123456789") = 3421780262 := by decide

example : hexStr (sha256 (utf8Bytes "abc")) =
    "ba7816bf8f01cfea414140de5dae2223b00361a396177a9cb410ff61f20015ad" := by decide

/-! ### Association-list lemmas -/

theorem alookup_alistInsert {K V : Type} [DecidableEq K]
    (l : List (K × V)) (k : K) (v : V) (k2 : K) :
    alookup (alistInsert l k v) k2 = if k = k2 then some v else alookup l k2 := by
  induction l with
  | nil => by_cases h : k = k2 <;> simp [alistInsert, alookup, h]
  | cons kv rest ih =>
    obtain ⟨k1, v1⟩ := kv
    by_cases h1 : k1 = k
    · subst h1
      by_cases h2 : k1 = k2 <;> simp [alistInsert, alookup, h2]
    · by_cases h2 : k1 = k2
      · subst h2
        have hk : ¬ k = k1 := fun h => h1 h.symm
        simp [alistInsert, alookup, h1, hk]
      · simp [alistInsert, alookup, h1, h2, ih]

theorem alookup_alistErase {K V : Type} [DecidableEq K]
    (l : List (K × V)) (k : K) (k2 : K) :
    alookup (alistErase l k) k2 = if k = k2 then none else alookup l k2 := by
  induction l with
  | nil => by_cases h : k = k2 <;> simp [alistErase, alookup, h]
  | cons kv rest ih =>
    obtain ⟨k1, v1⟩ := kv
    by_cases h1 : k1 = k
    · subst h1
      by_cases h2 : k1 = k2
      · subst h2
        simp only [alistErase, if_pos rfl] at ih ⊢
        simpa using ih
      · simp [alistErase, alookup, h2, ih]
    · by_cases h2 : k1 = k2
      · subst h2
        have hk : ¬ k = k1 := fun h => h1 h.symm
        simp [alistErase, alookup, h1, hk]
      · simp [alistErase, alookup, h1, h2, ih]

/-! ### State-projection lemmas for the read-side operations -/

theorem ensureSub_orderbooks (s : WsState) (sub : Subscription) :
    (ensureSub s sub).1.orderbooks = s.orderbooks := by
  unfold ensureSub subscribeOp; split <;> rfl

theorem ensureSub_timestamps (s : WsState) (sub : Subscription) :
    (ensureSub s sub).1.orderbookTimestamps = s.orderbookTimestamps := by
  unfold ensureSub subscribeOp; split <;> rfl

theorem ensureSub_trades (s : WsState) (sub : Subscription) :
    (ensureSub s sub).1.trades = s.trades := by
  unfold ensureSub subscribeOp; split <;> rfl

theorem ensureSub_lastReceived (s : WsState) (sub : Subscription) :
    (ensureSub s sub).1.lastReceivedOrderbookDataAt = s.lastReceivedOrderbookDataAt := by
  unfold ensureSub subscribeOp; split <;> rfl

theorem get_orderbook_orderbooks (s : WsState) (market : String) :
    (get_orderbook s market).1.orderbooks = s.orderbooks := by
  simp only [get_orderbook]
  split
  · rw [wait_for_orderbook_update, ensureSub_orderbooks, ensureSub_orderbooks]
  · rw [ensureSub_orderbooks]

theorem get_orderbook_timestamps (s : WsState) (market : String) :
    (get_orderbook s market).1.orderbookTimestamps = s.orderbookTimestamps := by
  simp only [get_orderbook]
  split
  · rw [wait_for_orderbook_update, ensureSub_timestamps, ensureSub_timestamps]
  · rw [ensureSub_timestamps]

theorem get_orderbook_result (s : WsState) (market : String) :
    (get_orderbook s market).2.2 =
      ⟨sortSide "bids" ((alookup s.orderbooks market).getD Book.empty).bids,
       sortSide "asks" ((alookup s.orderbooks market).getD Book.empty).asks⟩ := by
  simp only [get_orderbook]
  split
  · rw [wait_for_orderbook_update, ensureSub_orderbooks, ensureSub_orderbooks]
  · rw [ensureSub_orderbooks]

/-! ### C5 -/

/-- C5 counterexample: `_reset_data` (run by `_on_open`) does not clear the
trade and fill buffers, so on a new connection they are not restored to
their empty initial state as the claim asserts. -/
theorem C5_counterexample :
    (on_open { initState with
        trades := [("BTC-PERP", ["t0"])], fills := ["f0"] }).trades
        = [("BTC-PERP", ["t0"])] ∧
    (on_open { initState with
        trades := [("BTC-PERP", ["t0"])], fills := ["f0"] }).fills = ["f0"] ∧
    ([("BTC-PERP", ["t0"])] : List (String × List String)) ≠ [] ∧
    (["f0"] : List String) ≠ [] :=
  ⟨rfl, rfl, by simp, by simp⟩

/-- C5 (amended): when a new connection opens, `_reset_data` restores the
subscription list, order cache, ticker cache, order books and their
timestamps, the logged-in flag and the last-received marker to their empty
initial values, but the trade and fill buffers (and the API credentials)
are left untouched and survive across connections. -/
theorem C5_on_open_resets_all_but_trades_fills (s : WsState) :
    on_open s = { s with subscriptions := [], orders := [], tickers := [],
                         orderbookTimestamps := [], orderbooks := [],
                         loggedIn := false, lastReceivedOrderbookDataAt := 0 } ∧
    (on_open s).trades = s.trades ∧ (on_open s).fills = s.fills :=
  ⟨rfl, rfl, rfl⟩

/-! ### C6 -/

/-- C6: calling `get_trades` twice for the same market sends exactly one
subscribe frame in total, and the subscription is recorded exactly once. -/
theorem C6_get_trades_subscribes_once (s : WsState) (market : String)
    (h : (⟨"trades", some market⟩ : Subscription) ∉ s.subscriptions) :
    (get_trades s market).2.1 ++ (get_trades (get_trades s market).1 market).2.1
      = [Effect.send (Frame.subscribe ⟨"trades", some market⟩)] ∧
    List.count (⟨"trades", some market⟩ : Subscription)
      (get_trades (get_trades s market).1 market).1.subscriptions = 1 := by
  have h1 : (get_trades s market).1
      = { s with subscriptions := s.subscriptions ++ [⟨"trades", some market⟩] } := by
    simp [get_trades, ensureSub, subscribeOp, h]
  have hmem : (⟨"trades", some market⟩ : Subscription)
      ∈ s.subscriptions ++ [(⟨"trades", some market⟩ : Subscription)] := by simp
  constructor
  · rw [h1]
    simp [get_trades, ensureSub, subscribeOp, h, hmem]
  · rw [h1]
    simp only [get_trades, ensureSub]
    rw [if_pos hmem]
    simp [List.count_append, List.count_eq_zero.mpr h]

/-- C6 witness. -/
theorem C6_witness :
    (get_trades initState "BTC-PERP").2.1
        ++ (get_trades (get_trades initState "BTC-PERP").1 "BTC-PERP").2.1
      = [Effect.send (Frame.subscribe ⟨"trades", some "BTC-PERP"⟩)] ∧
    List.count (⟨"trades", some "BTC-PERP"⟩ : Subscription)
      (get_trades (get_trades initState "BTC-PERP").1 "BTC-PERP").1.subscriptions = 1 :=
  C6_get_trades_subscribes_once initState "BTC-PERP" (by simp [initState])

/-! ### C9 -/

theorem hmac_login_vector :
    hmacSha256Hex (utf8Bytes "s3cr3t")
      (utf8Bytes (toString (1700000000000 : Nat) ++ "websocket_login")) =
    "28afbecdee670647f83cfb84862766f1917fbc5538b1a569d66dcb6aa50bc6ec" := by decide

/-- C9: `login()` signs `"{timestamp_ms}websocket_login"` with
HMAC-SHA256 of the secret, sends the login frame with key, signature and
timestamp, and marks the session logged in; for secret `"s3cr3t"` and
timestamp `1700000000000` the signature equals the reference vector. -/
theorem C9_login_signature (s : WsState) (ts : Nat) :
    (loginOp s ts).1.loggedIn = true ∧
    (loginOp s ts).2 = [Effect.send (Frame.login s.apiKey
        (hmacSha256Hex (utf8Bytes s.apiSecret)
          (utf8Bytes (toString ts ++ "websocket_login"))) ts)] ∧
    (loginOp { s with apiSecret := "s3cr3t" } 1700000000000).2
      = [Effect.send (Frame.login s.apiKey
          "28afbecdee670647f83cfb84862766f1917fbc5538b1a569d66dcb6aa50bc6ec"
          1700000000000)] := by
  refine ⟨rfl, rfl, ?_⟩
  show [Effect.send (Frame.login s.apiKey
      (hmacSha256Hex (utf8Bytes "s3cr3t")
        (utf8Bytes (toString (1700000000000 : Nat) ++ "websocket_login")))
      1700000000000)] = _
  rw [hmac_login_vector]

/-! ### C10 -/

/-- C10: when a market's stored timestamp is `0` and no book entry exists,
`get_orderbook` blocks in `wait_for_orderbook_update` with the fixed
5-second timeout (the last effect in its trace) and then returns a result
with empty bids and asks rather than failing. -/
theorem C10_get_orderbook_waits_then_empty (s : WsState) (market : String)
    (hts : (alookup s.orderbookTimestamps market).getD 0 = 0)
    (hob : alookup s.orderbooks market = none) :
    (get_orderbook s market).2.1.getLast? = some (Effect.wait market (some 5)) ∧
    (get_orderbook s market).2.2 = ⟨[], []⟩ := by
  constructor
  · simp only [get_orderbook]
    rw [ensureSub_timestamps, if_pos hts]
    simp [wait_for_orderbook_update]
  · rw [get_orderbook_result, hob]
    rfl

/-- C10 witness. -/
theorem C10_witness :
    (get_orderbook initState "BTC-PERP").2.1.getLast?
      = some (Effect.wait "BTC-PERP" (some 5)) ∧
    (get_orderbook initState "BTC-PERP").2.2 = ⟨[], []⟩ :=
  C10_get_orderbook_waits_then_empty initState "BTC-PERP" rfl rfl

/-! ### C7 -/

theorem dequePush_length_le {α : Type} (cap : Nat) (hc : 1 ≤ cap)
    (b : List α) (x : α) (hb : b.length ≤ cap) :
    (dequePush cap b x).length ≤ cap := by
  unfold dequePush
  split
  · simp; omega
  · simp; omega

theorem dequePushAll_eq {α : Type} (cap : Nat) (hc : 1 ≤ cap) :
    ∀ (xs : List α) (b : List α), b.length ≤ cap →
      xs.foldl (dequePush cap) b = (b ++ xs).drop (b.length + xs.length - cap)
  | [], b, hb => by
    simp [Nat.sub_eq_zero_of_le hb]
  | x :: xs, b, hb => by
    rw [List.foldl_cons]
    by_cases hlt : b.length < cap
    · have hpush : dequePush cap b x = b ++ [x] := by simp [dequePush, hlt]
      rw [hpush, dequePushAll_eq cap hc xs (b ++ [x]) (by simp; omega)]
      have hl : (b ++ [x]) ++ xs = b ++ x :: xs := by simp
      rw [hl]
      congr 1
      simp; omega
    · have hcapeq : b.length = cap := by omega
      have hpush : dequePush cap b x = b.drop 1 ++ [x] := by
        simp only [dequePush, if_neg hlt]
        congr 2
        omega
      rw [hpush, dequePushAll_eq cap hc xs (b.drop 1 ++ [x]) (by simp; omega)]
      have hl : (b.drop 1 ++ [x]) ++ xs = (b ++ x :: xs).drop 1 := by
        cases b with
        | nil => simp at hcapeq; omega
        | cons y b2 => simp
      rw [hl, List.drop_drop]
      congr 1
      simp [hcapeq]; omega

theorem handleTradesSeq_lookup_self (market : String) :
    ∀ (xs : List String) (s : WsState), xs ≠ [] →
      alookup (handleTradesSeq s (xs.map (fun x => (market, x)))).trades market
        = some (xs.foldl (dequePush 10000) ((alookup s.trades market).getD []))
  | [], _, hne => absurd rfl hne
  | x :: xs, s, _ => by
    rw [List.map_cons]
    have hstep : handleTradesSeq s ((market, x) :: xs.map (fun x => (market, x)))
        = handleTradesSeq (handle_trades_message s market x)
            (xs.map (fun x => (market, x))) := rfl
    rw [hstep]
    have hlook : alookup (handle_trades_message s market x).trades market
        = some (dequePush 10000 ((alookup s.trades market).getD []) x) := by
      simp [handle_trades_message, alookup_alistInsert]
    cases xs with
    | nil =>
      simp only [List.map_nil]
      have : handleTradesSeq (handle_trades_message s market x) [] =
          handle_trades_message s market x := rfl
      rw [this, hlook]
      rfl
    | cons y ys =>
      rw [handleTradesSeq_lookup_self market (y :: ys)
            (handle_trades_message s market x) (by simp), hlook]
      rfl

theorem handle_trades_bounded (s : WsState) (market : String) (x : String)
    (h : TradesBounded s) : TradesBounded (handle_trades_message s market x) := by
  intro m b hb
  simp only [handle_trades_message] at hb
  rw [alookup_alistInsert] at hb
  by_cases hm : market = m
  · rw [if_pos hm] at hb
    cases hb
    apply dequePush_length_le 10000 (by omega)
    cases hl : alookup s.trades market with
    | none => simp
    | some b0 => simpa using h market b0 hl
  · rw [if_neg hm] at hb
    exact h m b hb

theorem handleTradesSeq_bounded :
    ∀ (seq : List (String × String)) (s : WsState), TradesBounded s →
      TradesBounded (handleTradesSeq s seq)
  | [], _, h => h
  | mx :: seq, s, h =>
    handleTradesSeq_bounded seq (handle_trades_message s mx.1 mx.2)
      (handle_trades_bounded s mx.1 mx.2 h)

/-- C7: pushing 10 001 trades for one market from the initial state retains
exactly the most recent 10 000 in arrival order (the oldest is evicted),
and after any sequence of trades messages no per-market buffer exceeds
10 000 entries. -/
theorem C7_trades_capacity (market : String) (msgs : List String)
    (h : msgs.length = 10001) :
    alookup (handleTradesSeq initState
        (msgs.map (fun x => (market, x)))).trades market = some (msgs.drop 1) ∧
    ∀ (seq : List (String × String)) (m : String) (b : List String),
      alookup (handleTradesSeq initState seq).trades m = some b →
        b.length ≤ 10000 := by
  constructor
  · rw [handleTradesSeq_lookup_self market msgs initState (by
        intro he; rw [he] at h; simp at h)]
    have : (alookup initState.trades market).getD [] = [] := rfl
    rw [this, dequePushAll_eq 10000 (by omega) msgs [] (by simp)]
    simp [h]
  · intro seq m b hb
    exact handleTradesSeq_bounded seq initState (by intro m2 b2 h2; cases h2) m b hb

/-! ### Book-operation lemmas -/

theorem except_bind_ok {ε α β : Type} (a : α) (f : α → Except ε β) :
    (Except.ok a >>= f : Except ε β) = f a := rfl

theorem except_bind_err {ε α β : Type} (e : ε) (f : α → Except ε β) :
    (Except.error e >>= f : Except ε β) = Except.error e := rfl

theorem setLevel_mem : ∀ (b : BookSide) (p sz : ℚ) (l : ℚ × ℚ),
    l ∈ setLevel b p sz → l ∈ b ∨ l = (p, sz)
  | [], p, sz, l, h => by
    simp [setLevel] at h
    simp [h]
  | (q, t) :: rest, p, sz, l, h => by
    by_cases hq : q = p
    · simp only [setLevel, if_pos hq, List.mem_cons] at h
      rcases h with h | h
      · right; exact h
      · left; exact List.mem_cons_of_mem _ h
    · simp only [setLevel, if_neg hq, List.mem_cons] at h
      rcases h with h | h
      · left; simp [h]
      · rcases setLevel_mem rest p sz l h with h2 | h2
        · left; exact List.mem_cons_of_mem _ h2
        · right; exact h2

theorem setLevel_keys : ∀ (b : BookSide) (p sz : ℚ),
    (setLevel b p sz).map Prod.fst
      = if p ∈ b.map Prod.fst then b.map Prod.fst else b.map Prod.fst ++ [p]
  | [], p, sz => by simp [setLevel]
  | (q, t) :: rest, p, sz => by
    by_cases hq : q = p
    · subst hq
      simp [setLevel]
    · have hpq : ¬ p = q := fun h => hq h.symm
      simp only [setLevel, if_neg hq, List.map_cons]
      rw [setLevel_keys rest p sz]
      by_cases hmem : p ∈ rest.map Prod.fst
      · simp [hmem, hpq]
      · simp [hmem, hpq]

theorem setLevel_keys_nodup (b : BookSide) (p sz : ℚ)
    (h : (b.map Prod.fst).Nodup) : ((setLevel b p sz).map Prod.fst).Nodup := by
  rw [setLevel_keys]
  split
  · exact h
  · next hp => simp [List.nodup_append, h, hp]

theorem delLevel_mem : ∀ (b : BookSide) (p : ℚ) (b2 : BookSide),
    delLevel b p = some b2 → ∀ l ∈ b2, l ∈ b
  | [], p, b2, h => by simp [delLevel] at h
  | (q, t) :: rest, p, b2, h => by
    by_cases hq : q = p
    · simp only [delLevel, if_pos hq, Option.some.injEq] at h
      subst h
      intro l hl
      exact List.mem_cons_of_mem _ hl
    · simp only [delLevel, if_neg hq, Option.map_eq_some'] at h
      obtain ⟨b3, h3, hb⟩ := h
      subst hb
      intro l hl
      rcases List.mem_cons.mp hl with h | h
      · simp [h]
      · exact List.mem_cons_of_mem _ (delLevel_mem rest p b3 h3 l h)

theorem delLevel_keys_sublist : ∀ (b : BookSide) (p : ℚ) (b2 : BookSide),
    delLevel b p = some b2 →
      List.Sublist (b2.map Prod.fst) (b.map Prod.fst)
  | [], p, b2, h => by simp [delLevel] at h
  | (q, t) :: rest, p, b2, h => by
    by_cases hq : q = p
    · simp only [delLevel, if_pos hq, Option.some.injEq] at h
      subst h
      exact List.sublist_cons_self q (List.map Prod.fst rest)
    · simp only [delLevel, if_neg hq, Option.map_eq_some'] at h
      obtain ⟨b3, h3, hb⟩ := h
      subst hb
      exact List.Sublist.cons₂ q (delLevel_keys_sublist rest p b3 h3)

theorem delLevel_eq_none : ∀ (b : BookSide) (p : ℚ),
    delLevel b p = none ↔ p ∉ b.map Prod.fst
  | [], p => by simp [delLevel]
  | (q, t) :: rest, p => by
    by_cases hq : q = p
    · subst hq
      simp [delLevel]
    · have hpq : ¬ p = q := fun h => hq h.symm
      simp [delLevel, hq, hpq, delLevel_eq_none rest p]

theorem delLevel_key_removed : ∀ (b : BookSide) (p : ℚ) (b2 : BookSide),
    delLevel b p = some b2 → (b.map Prod.fst).Nodup → p ∉ b2.map Prod.fst
  | [], p, b2, h => by simp [delLevel] at h
  | (q, t) :: rest, p, b2, h => by
    intro hnd
    rw [List.map_cons, List.nodup_cons] at hnd
    by_cases hq : q = p
    · simp only [delLevel, if_pos hq, Option.some.injEq] at h
      subst h
      rw [← hq]
      exact hnd.1
    · simp only [delLevel, if_neg hq, Option.map_eq_some'] at h
      obtain ⟨b3, h3, hb⟩ := h
      subst hb
      have hpq : ¬ p = q := fun h2 => hq h2.symm
      simp only [List.map_cons, List.mem_cons, not_or]
      exact ⟨hpq, delLevel_key_removed rest p b3 h3 hnd.2⟩

/-! ### C2 -/

/-- C2 counterexample: applying a diff whose zero-size level names an absent
price does not succeed — `del book[price]` raises `KeyError` (the book for
the market does not even exist yet, so the price is certainly absent). -/
theorem C2_counterexample :
    handle_orderbook_message fmtQ initState "BTC-PERP"
      ⟨"update", [(100, 0)], [], 1, 0⟩ = Except.error PyError.keyError := rfl

/-- C2 (amended): in a diff, a pair with `size > 0` inserts or overwrites
the price's size; a pair with `size == 0` removes the price when it is
present, but when the price key is absent the application raises `KeyError`
(it does not succeed); the partial-then-update scenario yields bids
`[(99, 2)]` and asks `[(101, 1)]`. -/
theorem C2_diff_semantics :
    (∀ (b : BookSide) (p sz : ℚ), sz ≠ 0 →
       applySide b [(p, sz)] = Except.ok (setLevel b p sz)) ∧
    (∀ (b : BookSide) (p : ℚ), p ∈ b.map Prod.fst → (b.map Prod.fst).Nodup →
       ∃ b2, applySide b [(p, 0)] = Except.ok b2 ∧ p ∉ b2.map Prod.fst) ∧
    (∀ (b : BookSide) (p : ℚ), p ∉ b.map Prod.fst →
       applySide b [(p, 0)] = Except.error PyError.keyError) ∧
    ((applyObSeq fmtQ initState
        [("BTC-PERP", ⟨"partial", [(100, 1), (99, 2)], [(101, 1)], 1, 483019333⟩),
         ("BTC-PERP", ⟨"update", [(100, 0)], [], 2, 1311374525⟩)]).map
       (fun s2 => (get_orderbook s2 "BTC-PERP").2.2)
      = Except.ok ⟨[(99, 2)], [(101, 1)]⟩) := by
  refine ⟨?_, ?_, ?_, ?_⟩
  · intro b p sz h
    simp [applySide, h]
  · intro b p hmem hnd
    cases hdel : delLevel b p with
    | none => exact absurd ((delLevel_eq_none b p).mp hdel) (by simp [hmem])
    | some b2 =>
      refine ⟨b2, ?_, delLevel_key_removed b p b2 hdel hnd⟩
      simp [applySide, hdel]
  · intro b p hmem
    simp [applySide, (delLevel_eq_none b p).mpr hmem]
  · with_unfolding_all rfl

/-- C2 witness. -/
theorem C2_witness :
    (∃ b2, applySide [((100 : ℚ), (1 : ℚ))] [((100 : ℚ), 0)] = Except.ok b2 ∧
       (100 : ℚ) ∉ b2.map Prod.fst) ∧
    applySide ([] : BookSide) [((100 : ℚ), 0)] = Except.error PyError.keyError ∧
    applySide ([] : BookSide) [((100 : ℚ), (2 : ℚ))]
      = Except.ok (setLevel ([] : BookSide) 100 2) :=
  ⟨C2_diff_semantics.2.1 [((100 : ℚ), (1 : ℚ))] 100 (by simp) (by simp),
   C2_diff_semantics.2.2.1 [] 100 (by simp),
   C2_diff_semantics.1 [] 100 2 (by norm_num)⟩

/-! ### C4 -/

theorem not_mem_removeAllSubs :
    ∀ (l : List Subscription) (sub : Subscription), sub ∉ removeAllSubs l sub
  | [], sub => by simp [removeAllSubs]
  | x :: rest, sub => by
    by_cases hx : x = sub
    · simpa [removeAllSubs, hx] using not_mem_removeAllSubs rest sub
    · simp only [removeAllSubs, if_neg hx, List.mem_cons, not_or]
      exact ⟨fun h => hx h.symm, not_mem_removeAllSubs rest sub⟩

/-- C4: on a checksum mismatch the market's book and timestamp entries are
fully discarded, the last-received marker is cleared, and after the
unsubscribe-then-resubscribe exactly one `('orderbook', market)`
subscription is recorded. -/
theorem C4_checksum_mismatch_resync (fmt : ℚ → String) (s : WsState)
    (market : String) (d : ObMsgData) (s1 : WsState)
    (happ : applyObData s market d = Except.ok s1)
    (hne : computedChecksum fmt (get_orderbook s1 market).2.2 ≠ d.checksum) :
    ∃ s2 eff, handle_orderbook_message fmt s market d = Except.ok (s2, eff) ∧
      alookup s2.orderbooks market = none ∧
      alookup s2.orderbookTimestamps market = none ∧
      s2.lastReceivedOrderbookDataAt = 0 ∧
      List.count (⟨"orderbook", some market⟩ : Subscription) s2.subscriptions = 1 := by
  have hh : handle_orderbook_message fmt s market d
      = Except.ok
          ((subscribeOp
             (unsubscribeOp
               (reset_orderbook
                 { (get_orderbook s1 market).1 with lastReceivedOrderbookDataAt := 0 }
                 market) ⟨"orderbook", some market⟩).1 ⟨"orderbook", some market⟩).1,
           (get_orderbook s1 market).2.1
             ++ (unsubscribeOp
                  (reset_orderbook
                    { (get_orderbook s1 market).1 with lastReceivedOrderbookDataAt := 0 }
                    market) ⟨"orderbook", some market⟩).2
             ++ (subscribeOp
                  (unsubscribeOp
                    (reset_orderbook
                      { (get_orderbook s1 market).1 with lastReceivedOrderbookDataAt := 0 }
                      market) ⟨"orderbook", some market⟩).1 ⟨"orderbook", some market⟩).2) := by
    unfold handle_orderbook_message
    rw [happ, except_bind_ok]
    simp only [if_pos hne]
  refine ⟨_, _, hh, ?_, ?_, rfl, ?_⟩
  · show alookup (alistErase (get_orderbook s1 market).1.orderbooks market) market = none
    rw [alookup_alistErase, if_pos rfl]
  · show alookup (alistErase (get_orderbook s1 market).1.orderbookTimestamps market) market
      = none
    rw [alookup_alistErase, if_pos rfl]
  · show List.count (⟨"orderbook", some market⟩ : Subscription)
      (removeAllSubs (get_orderbook s1 market).1.subscriptions ⟨"orderbook", some market⟩
        ++ [⟨"orderbook", some market⟩]) = 1
    rw [List.count_append]
    rw [List.count_eq_zero.mpr (not_mem_removeAllSubs _ _)]
    simp

/-- C4 witness. -/
theorem C4_witness :
    ∃ s2 eff, handle_orderbook_message fmtQ initState "BTC-PERP"
        ⟨"partial", [(100, 1)], [], 1, 0⟩ = Except.ok (s2, eff) ∧
      alookup s2.orderbooks "BTC-PERP" = none ∧
      alookup s2.orderbookTimestamps "BTC-PERP" = none ∧
      s2.lastReceivedOrderbookDataAt = 0 ∧
      List.count (⟨"orderbook", some "BTC-PERP"⟩ : Subscription) s2.subscriptions = 1 :=
  C4_checksum_mismatch_resync fmtQ initState "BTC-PERP" ⟨"partial", [(100, 1)], [], 1, 0⟩
    { initState with
        orderbookTimestamps := [("BTC-PERP", 1)],
        orderbooks := [("BTC-PERP", ⟨[(100, 1)], []⟩)] }
    rfl (by with_unfolding_all decide)

/-! ### C8 -/

/-- C8 counterexample: an `info` message without the reconnect code and
without a `channel` field is not dropped silently — the fall-through to
`message['channel']` raises `KeyError`. -/
theorem C8_counterexample :
    on_message fmtQ initState ⟨some "info", none, some 123, none, none⟩
      = Except.error PyError.keyError := rfl

/-- C8 (amended): a message with an unrecognized type (or an `info` message
without the reconnect code) that carries an unknown `channel` field is
dropped silently with no state change and no effects; but when such a
message lacks the `channel` field entirely, the dispatcher raises
`KeyError` instead of dropping it. -/
theorem C8_unrecognized_messages (fmt : ℚ → String) (s : WsState) :
    (∀ (m : InMessage) (t c : String), m.type = some t →
       t ≠ "subscribed" → t ≠ "unsubscribed" → t ≠ "info" → t ≠ "error" →
       m.channel = some c →
       c ≠ "orderbook" → c ≠ "trades" → c ≠ "ticker" → c ≠ "fills" → c ≠ "orders" →
       on_message fmt s m = Except.ok (s, [], Outcome.normal)) ∧
    (∀ (m : InMessage) (code : Int) (c : String), m.type = some "info" →
       m.code = some code → code ≠ 20001 → m.channel = some c →
       c ≠ "orderbook" → c ≠ "trades" → c ≠ "ticker" → c ≠ "fills" → c ≠ "orders" →
       on_message fmt s m = Except.ok (s, [], Outcome.normal)) ∧
    (∀ (m : InMessage) (t : String), m.type = some t →
       t ≠ "subscribed" → t ≠ "unsubscribed" → t ≠ "info" → t ≠ "error" →
       m.channel = none →
       on_message fmt s m = Except.error PyError.keyError) ∧
    (∀ (m : InMessage) (code : Int), m.type = some "info" → m.code = some code →
       code ≠ 20001 → m.channel = none →
       on_message fmt s m = Except.error PyError.keyError) := by
  refine ⟨?_, ?_, ?_, ?_⟩
  · intro m t c ht h1 h2 h3 h4 hc g1 g2 g3 g4 g5
    simp [on_message, reqKey, ht, h1, h2, h3, h4, except_bind_ok,
          dispatchChannel, hc, g1, g2, g3, g4, g5]
  · intro m code c ht hcode hne hc g1 g2 g3 g4 g5
    simp [on_message, reqKey, ht, hcode, hne, except_bind_ok,
          dispatchChannel, hc, g1, g2, g3, g4, g5]
  · intro m t ht h1 h2 h3 h4 hc
    simp [on_message, reqKey, ht, h1, h2, h3, h4, except_bind_ok,
          dispatchChannel, hc, except_bind_err]
  · intro m code ht hcode hne hc
    simp [on_message, reqKey, ht, hcode, hne, except_bind_ok,
          dispatchChannel, hc, except_bind_err]

/-- C8 witness. -/
theorem C8_witness :
    on_message fmtQ initState ⟨some "update", some "candles", none, none, none⟩
      = Except.ok (initState, [], Outcome.normal) ∧
    on_message fmtQ initState ⟨some "info", some "candles", some 99, none, none⟩
      = Except.ok (initState, [], Outcome.normal) ∧
    on_message fmtQ initState ⟨some "update", none, none, none, none⟩
      = Except.error PyError.keyError ∧
    on_message fmtQ initState ⟨some "info", none, some 99, none, none⟩
      = Except.error PyError.keyError :=
  ⟨(C8_unrecognized_messages fmtQ initState).1 ⟨some "update", some "candles", none, none, none⟩
      "update" "candles" rfl (by decide) (by decide) (by decide) (by decide) rfl
      (by decide) (by decide) (by decide) (by decide) (by decide),
   (C8_unrecognized_messages fmtQ initState).2.1 ⟨some "info", some "candles", some 99, none, none⟩
      99 "candles" rfl rfl (by decide) rfl
      (by decide) (by decide) (by decide) (by decide) (by decide),
   (C8_unrecognized_messages fmtQ initState).2.2.1 ⟨some "update", none, none, none, none⟩
      "update" rfl (by decide) (by decide) (by decide) (by decide) rfl,
   (C8_unrecognized_messages fmtQ initState).2.2.2 ⟨some "info", none, some 99, none, none⟩
      99 rfl rfl (by decide) rfl⟩

/-! ### C1 -/

theorem applySide_WF : ∀ (lv : List (ℚ × ℚ)) (b b2 : BookSide),
    (∀ l ∈ lv, 0 ≤ l.2) → SideWF b → applySide b lv = Except.ok b2 → SideWF b2
  | [], b, b2, _, hwf, h => by
    simp only [applySide, Except.ok.injEq] at h
    rw [← h]
    exact hwf
  | (p, sz) :: rest, b, b2, hlv, hwf, h => by
    by_cases hsz : sz = 0
    · subst hsz
      simp only [applySide, ne_eq, not_true_eq_false, if_false] at h
      cases hdel : delLevel b p with
      | none => rw [hdel] at h; cases h
      | some b3 =>
        rw [hdel] at h
        refine applySide_WF rest b3 b2 (fun l hl => hlv l (List.mem_cons_of_mem _ hl)) ?_ h
        refine ⟨List.Sublist.nodup (delLevel_keys_sublist b p b3 hdel) hwf.1, ?_⟩
        exact fun l hl => hwf.2 l (delLevel_mem b p b3 hdel l hl)
    · have hif : (if sz ≠ 0 then applySide (setLevel b p sz) rest
          else match delLevel b p with
               | some b4 => applySide b4 rest
               | none => Except.error PyError.keyError) = applySide (setLevel b p sz) rest :=
        if_pos hsz
      rw [applySide, hif] at h
      refine applySide_WF rest (setLevel b p sz) b2
        (fun l hl => hlv l (List.mem_cons_of_mem _ hl)) ?_ h
      refine ⟨setLevel_keys_nodup b p sz hwf.1, ?_⟩
      intro l hl
      rcases setLevel_mem b p sz l hl with h2 | h2
      · exact hwf.2 l h2
      · subst h2
        exact lt_of_le_of_ne (hlv (p, sz) (by simp)) (Ne.symm hsz)

theorem BooksWF_reset (s : WsState) (market : String) (h : BooksWF s) :
    BooksWF (reset_orderbook s market) := by
  intro m bk hl
  simp only [reset_orderbook] at hl
  rw [alookup_alistErase] at hl
  split at hl
  · cases hl
  · exact h m bk hl

theorem Book_empty_WF : BookWF Book.empty :=
  ⟨⟨List.nodup_nil, by simp [Book.empty]⟩, ⟨List.nodup_nil, by simp [Book.empty]⟩⟩

theorem applyObData_WF (s : WsState) (market : String) (d : ObMsgData)
    (s1 : WsState) (hs : BooksWF s) (hd : WFObMsg d)
    (happ : applyObData s market d = Except.ok s1) : BooksWF s1 := by
  simp only [applyObData] at happ
  generalize hset : (if d.action = "partial" then reset_orderbook s market else s) = s0 at happ
  have hs0 : BooksWF s0 := by
    rw [← hset]
    split
    · exact BooksWF_reset s market hs
    · exact hs
  have hbook : BookWF ((alookup s0.orderbooks market).getD Book.empty) := by
    cases hl : alookup s0.orderbooks market with
    | none => exact Book_empty_WF
    | some bk => exact hs0 market bk hl
  cases hb : applySide ((alookup s0.orderbooks market).getD Book.empty).bids d.bids with
  | error e => rw [hb, except_bind_err] at happ; cases happ
  | ok bids2 =>
    rw [hb, except_bind_ok] at happ
    cases ha : applySide ((alookup s0.orderbooks market).getD Book.empty).asks d.asks with
    | error e => rw [ha, except_bind_err] at happ; cases happ
    | ok asks2 =>
      rw [ha, except_bind_ok] at happ
      injection happ with happ2
      intro m bk hl
      rw [← happ2] at hl
      have hl2 : alookup (alistInsert s0.orderbooks market ⟨bids2, asks2⟩) m = some bk := hl
      rw [alookup_alistInsert] at hl2
      by_cases hm : market = m
      · rw [if_pos hm] at hl2
        injection hl2 with hl3
        rw [← hl3]
        exact ⟨applySide_WF d.bids _ bids2 hd.1 hbook.1 hb,
               applySide_WF d.asks _ asks2 hd.2 hbook.2 ha⟩
      · rw [if_neg hm] at hl2
        exact hs0 m bk hl2

theorem handle_ob_WF (fmt : ℚ → String) (s : WsState) (market : String)
    (d : ObMsgData) (s2 : WsState) (eff : List Effect)
    (hs : BooksWF s) (hd : WFObMsg d)
    (h : handle_orderbook_message fmt s market d = Except.ok (s2, eff)) :
    BooksWF s2 := by
  unfold handle_orderbook_message at h
  cases happ : applyObData s market d with
  | error e => rw [happ, except_bind_err] at h; cases h
  | ok s1 =>
    rw [happ, except_bind_ok] at h
    have hs1 : BooksWF s1 := applyObData_WF s market d s1 hs hd happ
    by_cases hck : computedChecksum fmt (get_orderbook s1 market).2.2 ≠ d.checksum
    · rw [if_pos hck] at h
      injection h with hpair
      have hob : s2.orderbooks = alistErase s1.orderbooks market := by
        rw [← congrArg (fun q => (Prod.fst q).orderbooks) hpair]
        show (alistErase (get_orderbook s1 market).1.orderbooks market) = _
        rw [get_orderbook_orderbooks]
      intro m bk hl
      rw [hob, alookup_alistErase] at hl
      split at hl
      · cases hl
      · exact hs1 m bk hl
    · rw [if_neg hck] at h
      injection h with hpair
      have hob : s2.orderbooks = s1.orderbooks := by
        rw [← congrArg (fun q => (Prod.fst q).orderbooks) hpair]
        exact get_orderbook_orderbooks s1 market
      intro m bk hl
      rw [hob] at hl
      exact hs1 m bk hl

theorem applyObSeq_WF (fmt : ℚ → String) :
    ∀ (msgs : List (String × ObMsgData)) (s : WsState), BooksWF s →
      (∀ md ∈ msgs, WFObMsg md.2) →
      ∀ s2, applyObSeq fmt s msgs = Except.ok s2 → BooksWF s2
  | [], s, hs, _, s2, h => by
    simp only [applyObSeq, List.foldlM_nil] at h
    injection h with h2
    rw [← h2]
    exact hs
  | md :: rest, s, hs, hmsgs, s2, h => by
    simp only [applyObSeq, List.foldlM_cons] at h
    cases hstep : handle_orderbook_message fmt s md.1 md.2 with
    | error e => rw [hstep] at h; cases h
    | ok pr =>
      rw [hstep] at h
      simp only [Except.map] at h
      rw [except_bind_ok] at h
      have hswf : BooksWF pr.1 :=
        handle_ob_WF fmt s md.1 md.2 pr.1 pr.2 hs (hmsgs md (by simp)) (by rw [hstep])
      exact applyObSeq_WF fmt rest pr.1 hswf
        (fun md2 hmd2 => hmsgs md2 (List.mem_cons_of_mem _ hmd2)) s2 h

theorem sortSide_mem (side : String) (b : BookSide) (l : ℚ × ℚ)
    (h : l ∈ sortSide side b) : l ∈ b := by
  unfold sortSide at h
  rw [List.mem_insertionSort] at h
  exact List.mem_of_mem_filter h

theorem sortSide_pos (side : String) (b : BookSide) (hb : ∀ l ∈ b, 0 < l.2) :
    ∀ l ∈ sortSide side b, 0 < l.2 :=
  fun l hl => hb l (sortSide_mem side b l hl)

theorem sortSide_sorted_and_ne (side : String) (b : BookSide)
    (hn : (b.map Prod.fst).Nodup) :
    (sortSide side b).Pairwise
      (fun x y => x.1 * sideSign side ≤ y.1 * sideSign side ∧ x.1 ≠ y.1) := by
  have hsorted : (sortSide side b).Pairwise
      (fun x y : ℚ × ℚ => x.1 * sideSign side ≤ y.1 * sideSign side) := by
    unfold sortSide
    haveI : IsTotal (ℚ × ℚ)
        (fun x y : ℚ × ℚ => x.1 * sideSign side ≤ y.1 * sideSign side) :=
      ⟨fun a b => le_total _ _⟩
    haveI : IsTrans (ℚ × ℚ)
        (fun x y : ℚ × ℚ => x.1 * sideSign side ≤ y.1 * sideSign side) :=
      ⟨fun a b c h1 h2 => le_trans h1 h2⟩
    exact List.sorted_insertionSort _ _
  have hfilter : ((b.filter (fun l => decide (l.2 ≠ 0))).map Prod.fst).Nodup :=
    List.Sublist.nodup (List.Sublist.map Prod.fst (List.filter_sublist b)) hn
  have hperm : List.Perm ((b.filter (fun l => decide (l.2 ≠ 0))).map Prod.fst)
      ((sortSide side b).map Prod.fst) :=
    (List.Perm.map Prod.fst (List.perm_insertionSort _ _)).symm
  have hnodup : ((sortSide side b).map Prod.fst).Nodup := hperm.nodup hfilter
  have hne : (sortSide side b).Pairwise (fun x y : ℚ × ℚ => x.1 ≠ y.1) :=
    List.pairwise_map.mp hnodup
  exact hsorted.and hne

theorem sortSide_bids_strict (b : BookSide) (hn : (b.map Prod.fst).Nodup) :
    (sortSide "bids" b).Pairwise (fun x y => y.1 < x.1) := by
  refine (sortSide_sorted_and_ne "bids" b hn).imp ?_
  intro x y h
  have hsign : sideSign "bids" = -1 := rfl
  rw [hsign] at h
  have h2 : y.1 ≤ x.1 := by
    have := h.1
    linarith
  exact lt_of_le_of_ne h2 (fun he => h.2 he.symm)

theorem sortSide_asks_strict (b : BookSide) (hn : (b.map Prod.fst).Nodup) :
    (sortSide "asks" b).Pairwise (fun x y => x.1 < y.1) := by
  refine (sortSide_sorted_and_ne "asks" b hn).imp ?_
  intro x y h
  have hsign : sideSign "asks" = 1 := rfl
  rw [hsign] at h
  have h2 : x.1 ≤ y.1 := by
    have := h.1
    linarith
  exact lt_of_le_of_ne h2 h.2

/-- C1: starting from the initial state, after any successfully applied
sequence of well-formed orderbook messages (with or without checksum
mismatches), `get_orderbook` returns on each side only levels with
`size > 0`, with bids strictly descending and asks strictly ascending by
price. -/
theorem C1_get_orderbook_sorted_positive (fmt : ℚ → String)
    (msgs : List (String × ObMsgData)) (market : String) (s2 : WsState)
    (hmsgs : ∀ md ∈ msgs, WFObMsg md.2)
    (happ : applyObSeq fmt initState msgs = Except.ok s2) :
    (∀ l ∈ (get_orderbook s2 market).2.2.bids, 0 < l.2) ∧
    (∀ l ∈ (get_orderbook s2 market).2.2.asks, 0 < l.2) ∧
    (get_orderbook s2 market).2.2.bids.Pairwise (fun x y => y.1 < x.1) ∧
    (get_orderbook s2 market).2.2.asks.Pairwise (fun x y => x.1 < y.1) := by
  have hwf : BooksWF s2 :=
    applyObSeq_WF fmt msgs initState (fun m bk h => by cases h) hmsgs s2 happ
  have hbook : BookWF ((alookup s2.orderbooks market).getD Book.empty) := by
    cases hl : alookup s2.orderbooks market with
    | none => exact Book_empty_WF
    | some bk => exact hwf market bk hl
  rw [get_orderbook_result]
  exact ⟨sortSide_pos _ _ hbook.1.2, sortSide_pos _ _ hbook.2.2,
         sortSide_bids_strict _ hbook.1.1, sortSide_asks_strict _ hbook.2.1⟩

/-- C1 witness. -/
theorem C1_witness :
    (∀ l ∈ (get_orderbook
        { initState with
            subscriptions := [⟨"orderbook", some "BTC-PERP"⟩],
            orderbookTimestamps := [("BTC-PERP", 1)],
            orderbooks := [("BTC-PERP", ⟨[(100, 1)], []⟩)] } "BTC-PERP").2.2.bids,
        0 < l.2) ∧
    (∀ l ∈ (get_orderbook
        { initState with
            subscriptions := [⟨"orderbook", some "BTC-PERP"⟩],
            orderbookTimestamps := [("BTC-PERP", 1)],
            orderbooks := [("BTC-PERP", ⟨[(100, 1)], []⟩)] } "BTC-PERP").2.2.asks,
        0 < l.2) ∧
    (get_orderbook
        { initState with
            subscriptions := [⟨"orderbook", some "BTC-PERP"⟩],
            orderbookTimestamps := [("BTC-PERP", 1)],
            orderbooks := [("BTC-PERP", ⟨[(100, 1)], []⟩)] }
      "BTC-PERP").2.2.bids.Pairwise (fun x y => y.1 < x.1) ∧
    (get_orderbook
        { initState with
            subscriptions := [⟨"orderbook", some "BTC-PERP"⟩],
            orderbookTimestamps := [("BTC-PERP", 1)],
            orderbooks := [("BTC-PERP", ⟨[(100, 1)], []⟩)] }
      "BTC-PERP").2.2.asks.Pairwise (fun x y => x.1 < y.1) :=
  C1_get_orderbook_sorted_positive fmtQ
    [("BTC-PERP", ⟨"partial", [(100, 1)], [], 1, 4186653746⟩)] "BTC-PERP"
    { initState with
        subscriptions := [⟨"orderbook", some "BTC-PERP"⟩],
        orderbookTimestamps := [("BTC-PERP", 1)],
        orderbooks := [("BTC-PERP", ⟨[(100, 1)], []⟩)] }
    (by
      intro md h
      simp only [List.mem_singleton] at h
      subst h
      exact ⟨by decide, by decide⟩)
    (by with_unfolding_all rfl)

/-! ### C3 -/

theorem zipLongest_map_eq_specRankStrings (fmt : ℚ → String) :
    ∀ (l1 l2 : List (ℚ × ℚ)),
      (zipLongest l1 l2).map
        (fun bo => String.intercalate ":" (([bo.1, bo.2].filterMap id).map (fmtLevel fmt)))
        = specRankStrings fmt l1 l2
  | [], [] => by simp [zipLongest, specRankStrings]
  | x :: xs, [] => by
    simp only [zipLongest, List.map_cons, specRankStrings]
    exact congrArg _ (zipLongest_map_eq_specRankStrings fmt xs [])
  | [], y :: ys => by
    simp only [zipLongest, List.map_cons, specRankStrings]
    exact congrArg _ (zipLongest_map_eq_specRankStrings fmt [] ys)
  | x :: xs, y :: ys => by
    simp only [zipLongest, List.map_cons, specRankStrings]
    exact congrArg _ (zipLongest_map_eq_specRankStrings fmt xs ys)

/-- C3: after applying any orderbook message, the locally computed checksum
(the value compared against the server's `checksum` field) equals CRC-32
over the UTF-8 bytes of the spec-described string: the top 100 levels of
each returned side paired by rank, each present level formatted as
`price:size` by the unchanged float formatter, bid and ask of a rank joined
with `':'`, and all rank strings joined with `':'`. -/
theorem C3_checksum_equals_spec_string (fmt : ℚ → String) (s : WsState)
    (market : String) (d : ObMsgData) (s1 : WsState)
    (happ : applyObData s market d = Except.ok s1) :
    computedChecksum fmt (get_orderbook s1 market).2.2
      = crc32 (utf8Bytes (specChecksumString fmt
          ((get_orderbook s1 market).2.2.bids.take 100)
          ((get_orderbook s1 market).2.2.asks.take 100))) := by
  unfold computedChecksum specChecksumString checksumData
  rw [zipLongest_map_eq_specRankStrings]

/-- C3 witness. -/
theorem C3_witness :
    computedChecksum fmtQ (get_orderbook
        { initState with
            orderbookTimestamps := [("BTC-PERP", 1)],
            orderbooks := [("BTC-PERP", ⟨[(100, 1)], []⟩)] } "BTC-PERP").2.2
      = crc32 (utf8Bytes (specChecksumString fmtQ
          ((get_orderbook
              { initState with
                  orderbookTimestamps := [("BTC-PERP", 1)],
                  orderbooks := [("BTC-PERP", ⟨[(100, 1)], []⟩)] }
            "BTC-PERP").2.2.bids.take 100)
          ((get_orderbook
              { initState with
                  orderbookTimestamps := [("BTC-PERP", 1)],
                  orderbooks := [("BTC-PERP", ⟨[(100, 1)], []⟩)] }
            "BTC-PERP").2.2.asks.take 100))) :=
  C3_checksum_equals_spec_string fmtQ initState "BTC-PERP"
    ⟨"partial", [(100, 1)], [], 1, 0⟩
    { initState with
        orderbookTimestamps := [("BTC-PERP", 1)],
        orderbooks := [("BTC-PERP", ⟨[(100, 1)], []⟩)] }
    rfl

/-- C7 witness. -/
theorem C7_witness :
    alookup (handleTradesSeq initState
        ((List.replicate 10001 "t").map (fun x => ("BTC-PERP", x)))).trades "BTC-PERP"
      = some ((List.replicate 10001 "t").drop 1) ∧
    ∀ (seq : List (String × String)) (m : String) (b : List String),
      alookup (handleTradesSeq initState seq).trades m = some b →
        b.length ≤ 10000 :=
  C7_trades_capacity "BTC-PERP" (List.replicate 10001 "t")
    (by rw [List.length_replicate])

end FtxWs
